import Mathlib

/-!
Verification of the NFC Connection-Handover engine in
`src/apps/system/js/nfc_handover.js` (module `HandoverManager`).

The JavaScript source is embedded shallowly:
* JS strings are modelled as `List Char`;
* `Uint8Array` contents are `List Nat` whose entries are below 256 by
  construction (the `Uint8Array` constructor coerces every element with
  ToUint8, i.e. modulo 256, and NaN becomes 0);
* JS exceptions (`throw`) are modelled with `Except String`; the
  `try/catch` wrappers in `NdefCodec.parse` and `NdefHandoverCodec.parse`
  convert them to `Option`;
* the 32-bit signed semantics of the JS bitwise operators is made explicit
  where the source can overflow (the long-record payload length
  accumulation in `parseNdefRecord`);
* loops are written as fuelled recursions; the fuel supplied by the
  top-level entry points exceeds the number of iterations on every input
  on which the source loop terminates, and exhaustion is reported as the
  distinct error string "out of fuel".  (The source loop in
  `NdefCodec.doParse` does not terminate on certain crafted inputs whose
  32-bit payload length is negative; the fuelled model returns the
  distinct error there instead of diverging.)
-/

/-- JS strings as sequences of characters. -/
abbrev JStr := List Char

/-- One NDEF record, mirroring the `MozNdefRecord` values built by the
source (`new MozNdefRecord(tnf, type, id, payload)`). -/
structure MozNdefRecord where
  tnf : Nat
  type : List Nat
  id : List Nat
  payload : List Nat
deriving DecidableEq

/-! ## Buffer (nfc_handover.js lines 123-156)

A bounds-checked sequential reader.  The cursor is an `Int` because
`skip` can legitimately be called with a negative length
(`parseBluetoothSSP` computes `len = octet - 1`, which is `-1` for a
zero length byte) and JS number arithmetic then moves the cursor
backwards.  An out-of-range typed-array read yields `undefined` in JS,
which every bitwise consumer coerces to 0; the model returns 0 there. -/

structure Buffer where
  data : List Nat
  offset : Int
deriving DecidableEq

def Buffer.byteAt (b : Buffer) : Nat :=
  if b.offset < 0 then 0 else b.data.getD b.offset.toNat 0

/-- `Buffer.prototype.getOctet` (lines 135-140): throws when the cursor
sits exactly at the end, otherwise returns the byte and advances. -/
def Buffer.getOctet (b : Buffer) : Except String (Nat × Buffer) :=
  if b.offset = (b.data.length : Int) then .error "Buffer too small"
  else .ok (b.byteAt, ⟨b.data, b.offset + 1⟩)

/-- `Buffer.prototype.getOctetArray` (lines 142-149): bounds check
`offset + len > length`, then `subarray(offset, offset + len)` (which
clamps, so a negative `len` produces an empty slice) and advance. -/
def Buffer.getOctetArray (b : Buffer) (len : Int) : Except String (List Nat × Buffer) :=
  if b.offset + len > (b.data.length : Int) then .error "Buffer too small"
  else .ok ((b.data.drop b.offset.toNat).take len.toNat, ⟨b.data, b.offset + len⟩)

/-- `Buffer.prototype.skip` (lines 151-156): same bounds check as
`getOctetArray`, advances without returning data. -/
def Buffer.skip (b : Buffer) (len : Int) : Except String Buffer :=
  if b.offset + len > (b.data.length : Int) then .error "Buffer too small"
  else .ok ⟨b.data, b.offset + len⟩

/-! ## NdefUtils and NdefConsts (lines 56-117) -/

def NdefUtils.fromUTF8 (s : JStr) : List Nat := s.map Char.toNat

def NdefUtils.equalArrays (a1 a2 : List Nat) : Bool := a1 == a2

def NdefUtils.toUTF8 (a : List Nat) : JStr := a.map Char.ofNat

def NdefConsts.MB : Nat := 128
def NdefConsts.ME : Nat := 64
def NdefConsts.CF : Nat := 32
def NdefConsts.SR : Nat := 16
def NdefConsts.IL : Nat := 8
def NdefConsts.TNF : Nat := 7

def NdefConsts.tnf_well_known : Nat := 1
def NdefConsts.tnf_mime_media : Nat := 2

def NdefConsts.rtd_alternative_carrier : List Nat := NdefUtils.fromUTF8 "ac".toList
def NdefConsts.rtd_collision_resolution : List Nat := NdefUtils.fromUTF8 "cr".toList
def NdefConsts.rtd_handover_request : List Nat := NdefUtils.fromUTF8 "Hr".toList
def NdefConsts.rtd_handover_select : List Nat := NdefUtils.fromUTF8 "Hs".toList

/-! ## 32-bit signed JS arithmetic

`payloadLen <<= 8; payloadLen |= octet` in `parseNdefRecord` operates on
32-bit signed integers.  `toUint32` gives the 32-bit pattern of an
integer and `ofInt32` reinterprets a pattern as signed. -/

def toUint32 (i : Int) : Nat := (i % 4294967296).toNat

def ofInt32 (n : Nat) : Int :=
  if n % 4294967296 < 2147483648 then (n % 4294967296 : Int)
  else (n % 4294967296 : Int) - 4294967296

/-- One step of `payloadLen <<= 8; payloadLen |= this.buffer.getOctet()`. -/
def jsShl8Or (acc : Int) (octet : Nat) : Int :=
  ofInt32 (((toUint32 acc <<< 8) % 4294967296) ||| octet)

/-! ## NdefCodec (lines 161-221) -/

/-- The three extra payload-length octets read when the short-record
flag is unset (lines 206-211), accumulated with the 32-bit shift-or. -/
def NdefCodec.readLongLen (pl0 : Nat) (b : Buffer) : Except String (Int × Buffer) := do
  let (x1, b) ← b.getOctet
  let (x2, b) ← b.getOctet
  let (x3, b) ← b.getOctet
  pure (jsShl8Or (jsShl8Or (jsShl8Or (pl0 : Int) x1) x2) x3, b)

/-- Payload length: the single octet already read when SR is set, else
the long form. -/
def NdefCodec.readPayloadLen (firstOctet pl0 : Nat) (b : Buffer) :
    Except String (Int × Buffer) :=
  if firstOctet &&& NdefConsts.SR ≠ 0 then pure ((pl0 : Int), b)
  else NdefCodec.readLongLen pl0 b

/-- Id length octet, read only when the IL flag is set (lines 212-215). -/
def NdefCodec.readIdLen (firstOctet : Nat) (b : Buffer) :
    Except String (Nat × Buffer) :=
  if firstOctet &&& NdefConsts.IL ≠ 0 then b.getOctet else pure (0, b)

/-- `NdefCodec.parseNdefRecord` (lines 202-220). -/
def NdefCodec.parseNdefRecord (firstOctet : Nat) (b : Buffer) :
    Except String (MozNdefRecord × Buffer) := do
  let tnf := firstOctet &&& NdefConsts.TNF
  let (typeLen, b) ← b.getOctet
  let (pl0, b) ← b.getOctet
  let (payloadLen, b) ← NdefCodec.readPayloadLen firstOctet pl0 b
  let (idLen, b) ← NdefCodec.readIdLen firstOctet b
  let (ty, b) ← b.getOctetArray (typeLen : Int)
  let (rid, b) ← b.getOctetArray (idLen : Int)
  let (payload, b) ← b.getOctetArray payloadLen
  pure (⟨tnf, ty, rid, payload⟩, b)

/-- The `do..while` loop of `NdefCodec.doParse` (lines 182-200) as a
fuelled recursion; `isFirstRecord` tracks the loop flag. -/
def NdefCodec.parseLoop : Nat → Buffer → Bool → Except String (List MozNdefRecord)
  | 0, _, _ => .error "out of fuel"
  | fuel + 1, b, isFirstRecord => do
    let (firstOctet, b1) ← b.getOctet
    if isFirstRecord ∧ firstOctet &&& NdefConsts.MB = 0 then
      throw "MB bit not set in first NDEF record"
    else if ¬ isFirstRecord ∧ firstOctet &&& NdefConsts.MB ≠ 0 then
      throw "MB can only be set for the first record"
    else if firstOctet &&& NdefConsts.CF ≠ 0 then
      throw "Cannot deal with chunked records"
    else do
      let (r, b2) ← NdefCodec.parseNdefRecord firstOctet b1
      if firstOctet &&& NdefConsts.ME ≠ 0 then pure [r]
      else do
        let rest ← NdefCodec.parseLoop fuel b2 false
        pure (r :: rest)

/-- `NdefCodec.parse` (lines 172-180): the try/catch wrapper turning any
parse exception into `null`. -/
def NdefCodec.parse (b : Buffer) : Option (List MozNdefRecord) :=
  match NdefCodec.parseLoop (b.data.length + 1) b true with
  | .ok records => some records
  | .error _ => none

/-! Reference definitions used to state the header-flag validation
property (claim C8): `relaxedLoop` is `parseLoop` with the three
header-flag checks removed, `headerTrace` is the sequence of header
octets that traversal reads, and `firstViol` picks out the first
violated check in the order the source checks them. -/

def NdefCodec.relaxedLoop : Nat → Buffer → Except String (List MozNdefRecord)
  | 0, _ => .error "out of fuel"
  | fuel + 1, b => do
    let (firstOctet, b1) ← b.getOctet
    let (r, b2) ← NdefCodec.parseNdefRecord firstOctet b1
    if firstOctet &&& NdefConsts.ME ≠ 0 then pure [r]
    else do
      let rest ← NdefCodec.relaxedLoop fuel b2
      pure (r :: rest)

def NdefCodec.headerTrace : Nat → Buffer → List Nat
  | 0, _ => []
  | fuel + 1, b =>
    match b.getOctet with
    | .error _ => []
    | .ok (firstOctet, b1) =>
      match NdefCodec.parseNdefRecord firstOctet b1 with
      | .error _ => [firstOctet]
      | .ok (_, b2) =>
        if firstOctet &&& NdefConsts.ME ≠ 0 then [firstOctet]
        else firstOctet :: NdefCodec.headerTrace fuel b2

def NdefCodec.firstViol : Bool → List Nat → Option String
  | _, [] => none
  | isFirst, o :: rest =>
    if isFirst ∧ o &&& NdefConsts.MB = 0 then
      some "MB bit not set in first NDEF record"
    else if ¬ isFirst ∧ o &&& NdefConsts.MB ≠ 0 then
      some "MB can only be set for the first record"
    else if o &&& NdefConsts.CF ≠ 0 then
      some "Cannot deal with chunked records"
    else NdefCodec.firstViol false rest

/-! ## NdefHandoverCodec (lines 227-451) -/

/-- One alternate carrier as produced by `parseAC`: carrier power state
and the carrier data record located by id. -/
structure AltCarrier where
  cps : Nat
  cdr : MozNdefRecord
deriving DecidableEq

/-- The parse result object `h` of `NdefHandoverCodec.doParse`:
`h.type` (here `htype`), version halves, the collision-resolution value
(only present for Hr) and the alternate carriers. -/
structure HandoverInfo where
  majorVersion : Nat
  minorVersion : Nat
  htype : JStr
  cr : Option Nat
  ac : List AltCarrier
deriving DecidableEq

/-- `findNdefRecordWithId` (lines 315-323). -/
def NdefHandoverCodec.findNdefRecordWithId (rid : List Nat) :
    List MozNdefRecord → Except String MozNdefRecord
  | [] => throw "Could not find record with id"
  | record :: rest =>
    if NdefUtils.equalArrays rid record.id then pure record
    else NdefHandoverCodec.findNdefRecordWithId rid rest

/-- `parseAC` (lines 305-313). -/
def NdefHandoverCodec.parseAC (acPayload : List Nat) (ndef : List MozNdefRecord) :
    Except String AltCarrier := do
  let b : Buffer := ⟨acPayload, 0⟩
  let (c, b) ← b.getOctet
  let cps := c &&& 3
  let (cdrLen, b) ← b.getOctet
  let (cdr, _) ← b.getOctetArray (cdrLen : Int)
  let cdrRec ← NdefHandoverCodec.findNdefRecordWithId cdr ndef
  pure ⟨cps, cdrRec⟩

/-- `parseAcRecords` (lines 293-303).  The source iterates `acNdef` from
index `offset`; the caller passes the already-dropped list here. -/
def NdefHandoverCodec.parseAcRecords (ndef : List MozNdefRecord) :
    List MozNdefRecord → Except String (List AltCarrier)
  | [] => pure []
  | record :: rest =>
    if NdefUtils.equalArrays record.type NdefConsts.rtd_alternative_carrier then do
      let a ← NdefHandoverCodec.parseAC record.payload ndef
      let rest' ← NdefHandoverCodec.parseAcRecords ndef rest
      pure (a :: rest')
    else throw "Can only parse AC record within Hs"

/-- `NdefHandoverCodec.doParse` (lines 253-291).  Reading `ndefMsg[0]`
of an empty array gives `undefined` in JS and the subsequent
`.payload` access raises a TypeError; `NdefCodec.parse` never returns
an empty record list, so the inner `embeddedNdef[0]` access cannot
fail, but the model keeps a distinct error for totality. -/
def NdefHandoverCodec.doParse (ndefMsg : List MozNdefRecord) :
    Except String HandoverInfo := do
  match ndefMsg with
  | [] => throw "TypeError: ndefMsg[0] is undefined"
  | record :: _ => do
    let buffer : Buffer := ⟨record.payload, 0⟩
    let (version, buffer) ← buffer.getOctet
    let majorVersion := version >>> 4
    let minorVersion := version &&& 15
    let embeddedNdef ←
      match NdefCodec.parse buffer with
      | none => throw "Could not parse embedded NDEF in Hr/Hs record"
      | some e => pure e
    if record.tnf ≠ NdefConsts.tnf_well_known then
      throw "Expected Well Known TNF in Hr/Hs record"
    else if NdefUtils.equalArrays record.type NdefConsts.rtd_handover_select then do
      let acs ← NdefHandoverCodec.parseAcRecords ndefMsg embeddedNdef
      pure ⟨majorVersion, minorVersion, "Hs".toList, none, acs⟩
    else if NdefUtils.equalArrays record.type NdefConsts.rtd_handover_request then
      match embeddedNdef with
      | [] => throw "TypeError: embeddedNdef[0] is undefined"
      | crr :: restEmb =>
        if ¬ NdefUtils.equalArrays crr.type NdefConsts.rtd_collision_resolution then
          throw "Expected Collision Resolution Record"
        else if crr.payload.length ≠ 2 then
          throw "Expected random number in Collision Resolution Record"
        else do
          let cr := (crr.payload.getD 0 0 <<< 8) ||| crr.payload.getD 1 0
          let acs ← NdefHandoverCodec.parseAcRecords ndefMsg restEmb
          pure ⟨majorVersion, minorVersion, "Hr".toList, some cr, acs⟩
    else throw "Can only handle Hr and Hs records for now"

/-- `NdefHandoverCodec.parse` (lines 244-251): try/catch wrapper. -/
def NdefHandoverCodec.parse (ndefMsg : List MozNdefRecord) : Option HandoverInfo :=
  match NdefHandoverCodec.doParse ndefMsg with
  | .ok h => some h
  | .error _ => none

def btOobMime : JStr := "application/vnd.bluetooth.ep.oob".toList

def btOobMimeBytes : List Nat := NdefUtils.fromUTF8 btOobMime

/-- The loop body of `searchForBluetoothAC` (lines 332-343). -/
def NdefHandoverCodec.searchACList : List AltCarrier → Option MozNdefRecord
  | [] => none
  | a :: rest =>
    if a.cdr.tnf = NdefConsts.tnf_mime_media ∧ NdefUtils.toUTF8 a.cdr.type = btOobMime
    then some a.cdr
    else NdefHandoverCodec.searchACList rest

/-- `searchForBluetoothAC` (lines 332-343). -/
def NdefHandoverCodec.searchForBluetoothAC (h : HandoverInfo) : Option MozNdefRecord :=
  NdefHandoverCodec.searchACList h.ac

/-- JS `n.toString(16)` digits, via fuelled recursion (`n / 16`
strictly decreases; the fuel `n + 1` is always sufficient). -/
def hexDigitU (n : Nat) : Char :=
  if n < 10 then Char.ofNat (48 + n) else Char.ofNat (55 + n)

def jsHexUpperAux : Nat → Nat → JStr
  | 0, _ => []
  | _, 0 => []
  | fuel + 1, n => jsHexUpperAux fuel (n / 16) ++ [hexDigitU (n % 16)]

/-- `o.toString(16).toUpperCase()`. -/
def jsHexUpper (n : Nat) : JStr :=
  if n = 0 then ['0'] else jsHexUpperAux (n + 1) n

/-- One iteration of the MAC-printing loop in `parseBluetoothSSP`
(lines 358-367), applied to the octet just read and the string built
so far. -/
def macStep (o : Nat) (mac : JStr) : JStr :=
  let mac1 := if mac.length > 0 then ':' :: mac else mac
  let mac2 := jsHexUpper o ++ mac1
  if o < 16 then '0' :: mac2 else mac2

/-- The six-iteration MAC loop of `parseBluetoothSSP`. -/
def NdefHandoverCodec.macLoop : Nat → Buffer → JStr → Except String (JStr × Buffer)
  | 0, b, mac => pure (mac, b)
  | k + 1, b, mac => do
    let (o, b) ← b.getOctet
    NdefHandoverCodec.macLoop k b (macStep o mac)

/-- The state accumulated by `parseBluetoothSSP`. -/
structure Btssp where
  mac : JStr
  localName : Option JStr
deriving DecidableEq

/-- The OOB-element `while` loop of `parseBluetoothSSP` (lines 369-385):
runs until the cursor sits exactly at the payload end; each element is a
length byte (`len = octet - 1`, an `Int`: it is `-1` when the length
byte is 0), a type byte, and `len` value bytes, read for types 8/9 and
skipped otherwise. -/
def NdefHandoverCodec.oobLoop : Nat → Buffer → Btssp → Except String Btssp
  | 0, _, _ => .error "out of fuel"
  | fuel + 1, b, btssp =>
    if b.offset = (b.data.length : Int) then pure btssp
    else do
      let (lenOctet, b) ← b.getOctet
      let len : Int := (lenOctet : Int) - 1
      let (t, b) ← b.getOctet
      if t = 8 ∨ t = 9 then do
        let (n, b) ← b.getOctetArray len
        NdefHandoverCodec.oobLoop fuel b ⟨btssp.mac, some (NdefUtils.toUTF8 n)⟩
      else do
        let b ← b.skip len
        NdefHandoverCodec.oobLoop fuel b btssp

/-- `parseBluetoothSSP` (lines 353-387). -/
def NdefHandoverCodec.parseBluetoothSSP (cdr : MozNdefRecord) : Except String Btssp := do
  let buf : Buffer := ⟨cdr.payload, 0⟩
  let (l0, buf) ← buf.getOctet
  let (l1, buf) ← buf.getOctet
  let _btsspLen := l0 ||| (l1 <<< 8)
  let (mac, buf) ← NdefHandoverCodec.macLoop 6 buf []
  NdefHandoverCodec.oobLoop (cdr.payload.length + 1) buf ⟨mac, none⟩

/-! ### Encoding (lines 395-450)

`mac.split(':')` and `parseInt(group, 16)`: `split` with a one-character
separator is modelled by `splitOnColon`; `parseInt` with radix 16 takes
the longest leading run of hex digits and yields NaN (`none`) when that
run is empty (the leading-whitespace/sign/0x handling of `parseInt` is
irrelevant for colon-separated octet groups and omitted).  Storing a
number into a `Uint8Array` coerces with ToUint8: NaN becomes 0 and other
values are taken modulo 256 (`jsToUint8`). -/

def splitOnColon : JStr → List JStr
  | [] => [[]]
  | c :: rest =>
    if c = ':' then [] :: splitOnColon rest
    else
      match splitOnColon rest with
      | g :: gs => (c :: g) :: gs
      | [] => [[c]]

def hexCharVal (c : Char) : Option Nat :=
  if '0' ≤ c ∧ c ≤ '9' then some (c.toNat - 48)
  else if 'a' ≤ c ∧ c ≤ 'f' then some (c.toNat - 87)
  else if 'A' ≤ c ∧ c ≤ 'F' then some (c.toNat - 55)
  else none

def parseIntHex (s : JStr) : Option Nat :=
  let ds := s.takeWhile (fun c => (hexCharVal c).isSome)
  if ds = [] then none
  else some (ds.foldl (fun a c => 16 * a + (hexCharVal c).getD 0) 0)

def jsToUint8 (v : Option Nat) : Nat := (v.getD 0) % 256

/-- `encodeHandoverRequest` (lines 395-423).  The two templates are the
source byte arrays verbatim; every stored element carries the
`Uint8Array` ToUint8 coercion.  `rnd >>> 8` is the JS unsigned shift on
ToUint32(rnd); `rnd & 0xff` keeps the low octet. -/
def NdefHandoverCodec.encodeHandoverRequest (mac : JStr) (cps rnd : Nat) :
    Option (List MozNdefRecord) :=
  let macVals := splitOnColon mac
  if macVals.length ≠ 6 then none
  else
    let m0 := jsToUint8 (parseIntHex (macVals.getD 5 []))
    let m1 := jsToUint8 (parseIntHex (macVals.getD 4 []))
    let m2 := jsToUint8 (parseIntHex (macVals.getD 3 []))
    let m3 := jsToUint8 (parseIntHex (macVals.getD 2 []))
    let m4 := jsToUint8 (parseIntHex (macVals.getD 1 []))
    let m5 := jsToUint8 (parseIntHex (macVals.getD 0 []))
    let rndLSB := (rnd &&& 255) % 256
    let rndMSB := ((rnd % 4294967296) >>> 8) % 256
    some [⟨1, [72, 114], [],
           [18, 145, 2, 2, 99, 114, rndMSB, rndLSB, 81, 2, 4, 97,
            99, cps % 256, 1, 98, 0]⟩,
          ⟨2, btOobMimeBytes, [98],
           [8, 0, m0, m1, m2, m3, m4, m5]⟩]

/-- `encodeHandoverSelect` (lines 425-450). -/
def NdefHandoverCodec.encodeHandoverSelect (mac : JStr) (cps : Nat) :
    Option (List MozNdefRecord) :=
  let macVals := splitOnColon mac
  if macVals.length ≠ 6 then none
  else
    let m0 := jsToUint8 (parseIntHex (macVals.getD 5 []))
    let m1 := jsToUint8 (parseIntHex (macVals.getD 4 []))
    let m2 := jsToUint8 (parseIntHex (macVals.getD 3 []))
    let m3 := jsToUint8 (parseIntHex (macVals.getD 2 []))
    let m4 := jsToUint8 (parseIntHex (macVals.getD 1 []))
    let m5 := jsToUint8 (parseIntHex (macVals.getD 0 []))
    some [⟨NdefConsts.tnf_well_known, NdefConsts.rtd_handover_select, [],
           [18, 209, 2, 4, 97, 99, cps % 256, 1, 48, 0]⟩,
          ⟨NdefConsts.tnf_mime_media, btOobMimeBytes, [48],
           [8, 0, m0, m1, m2, m3, m4, m5]⟩]

/-! ## HandoverManager orchestration (lines 464-709)

Single-threaded event model: each public operation and each event
handler is one atomic step `state -> Except error (state, outputs)`.
An `Except.error` is an exception escaping the handler (uncaught in the
source).  Requests to asynchronous collaborators (pairing, NDEF send,
the Bluetooth-enable settings write, the completion event) are recorded
as outputs; their completion callbacks are separate future events and
are outside the modelled step.  The invocation of a queued or direct
action callback is recorded as the observable output `invoked`.
`Math.random()` in `initiateFileTransfer` is modelled by the oracle
field `rndOracle`. -/

/-- The callbacks stored in `actionQueue` entries, as `callback`
plus `args` tokens. -/
inductive HAction where
  | fileTransfer (mac : JStr)
  | pairing (mac : JStr)
  | handoverRequest (ndef : List MozNdefRecord) (session : Nat)
  | initiateFT (session : Nat) (blob : Nat) (requestId : Nat)
deriving DecidableEq

/-- Observable effects of one orchestrator step. -/
inductive HOut where
  | invoked (a : HAction)
  | requestBtEnable
  | unpairReq (mac : JStr)
  | pairRequest (mac : JStr)
  | sendNdef (session : Nat) (msg : Option (List MozNdefRecord))
  | sendFileStatus (status : Nat) (requestId : Nat) (session : Nat)
deriving DecidableEq

/-- `sendFileRequest` contents (line 614); its `onsuccess`/`onerror`
closures are always `dispatchSendFileStatus 0 / 1`, modelled directly in
`transferComplete`. -/
structure SendFileReq where
  session : Nat
  blob : Nat
  requestId : Nat
deriving DecidableEq

/-- The mutable fields of `HandoverManager` (lines 24, 464-481). -/
structure HMState where
  bluetoothEnabled : Bool
  defaultAdapterPresent : Bool
  adapterAddress : JStr
  actionQueue : List HAction
  sendFileRequest : Option SendFileReq
  remoteMAC : Option JStr
  settingsNotified : Bool
  rndOracle : Nat
deriving DecidableEq

/-- `getBluetoothMAC` (lines 527-544).  The two `parse` failures are
silently converted to `null`, but `parseBluetoothSSP` is called outside
any try/catch, so its exception propagates. -/
def getBluetoothMAC (ndef : List MozNdefRecord) : Except String (Option JStr) :=
  match NdefHandoverCodec.parse ndef with
  | none => .ok none
  | some handover =>
    match NdefHandoverCodec.searchForBluetoothAC handover with
    | none => .ok none
    | some btsspRecord =>
      match NdefHandoverCodec.parseBluetoothSSP btsspRecord with
      | .error e => .error e
      | .ok btssp => .ok (some btssp.mac)

/-- `doPairing` (lines 546-556): no-op without an adapter, otherwise a
pair request whose callbacks complete asynchronously. -/
def doPairing (s : HMState) (mac : JStr) : HMState × List HOut :=
  if s.defaultAdapterPresent = false then (s, [])
  else (s, [.pairRequest mac])

/-- `doFileTransfer` (lines 558-578). -/
def doFileTransfer (s : HMState) (mac : JStr) : HMState × List HOut :=
  match s.sendFileRequest with
  | none => (s, [])
  | some _ =>
    let s1 := { s with remoteMAC := some mac }
    doPairing s1 mac

/-- `doHandoverRequest` (lines 580-601): parses the Request, answers
with a Select built from the own adapter address, then pairs on send
success (asynchronously).  Reading `self.defaultAdapter.address` with no
adapter raises a TypeError. -/
def doHandoverRequest (s : HMState) (ndef : List MozNdefRecord) (session : Nat) :
    Except String (HMState × List HOut) :=
  match getBluetoothMAC ndef with
  | .error e => .error e
  | .ok none => .ok (s, [])
  | .ok (some mac) =>
    let s1 := { s with remoteMAC := some mac }
    if s1.defaultAdapterPresent = false then
      .error "TypeError: defaultAdapter is null"
    else
      let carrierPowerState : Nat := if s1.bluetoothEnabled then 1 else 2
      let hs := NdefHandoverCodec.encodeHandoverSelect s1.adapterAddress carrierPowerState
      .ok (s1, [.sendNdef session hs])

/-- `initiateFileTransfer` (lines 603-631): records the pending request,
then sends a Handover Request built with a random collision value. -/
def initiateFileTransfer (s : HMState) (session blob requestId : Nat) :
    Except String (HMState × List HOut) :=
  let s1 := { s with sendFileRequest := some ⟨session, blob, requestId⟩ }
  if s1.defaultAdapterPresent = false then
    .error "TypeError: defaultAdapter is null"
  else
    let carrierPowerState : Nat := if s1.bluetoothEnabled then 1 else 2
    let rnd := s1.rndOracle % 65535
    let hr := NdefHandoverCodec.encodeHandoverRequest s1.adapterAddress
                carrierPowerState rnd
    .ok (s1, [.sendNdef session hr])

/-- `action.callback.apply(null, action.args)`: dispatch one stored
callback; the invocation itself is recorded as an output. -/
def runCallback (s : HMState) (a : HAction) : Except String (HMState × List HOut) :=
  match a with
  | .fileTransfer mac =>
    let p := doFileTransfer s mac
    .ok (p.1, .invoked a :: p.2)
  | .pairing mac =>
    let p := doPairing s mac
    .ok (p.1, .invoked a :: p.2)
  | .handoverRequest ndef session =>
    (doHandoverRequest s ndef session).map (fun p => (p.1, .invoked a :: p.2))
  | .initiateFT session blob requestId =>
    (initiateFileTransfer s session blob requestId).map
      (fun p => (p.1, .invoked a :: p.2))

/-- `doAction` (lines 514-525): queue while Bluetooth is disabled,
requesting enablement through the settings lock only once per cycle;
run directly once enabled. -/
def doAction (s : HMState) (a : HAction) : Except String (HMState × List HOut) :=
  if s.bluetoothEnabled = false then
    let s1 := { s with actionQueue := s.actionQueue ++ [a] }
    if s1.settingsNotified = false then
      .ok ({ s1 with settingsNotified := true }, [.requestBtEnable])
    else .ok (s1, [])
  else runCallback s a

/-- The `for` loop of the `adapteradded` handler (lines 495-498); an
exception escaping one callback aborts the remaining iterations (and,
in the source, skips the queue reset that follows the loop). -/
def drainQueue (s : HMState) : List HAction → Except String (HMState × List HOut)
  | [] => .ok (s, [])
  | a :: rest => do
    let (s1, o1) ← runCallback s a
    let (s2, o2) ← drainQueue s1 rest
    .ok (s2, o1 ++ o2)

/-- The `adapteradded` listener with its `getDefaultAdapter` success
callback (lines 483-501), collapsed to one atomic step: reset
`settingsNotified`, install the adapter, run every queued action in
order, clear the queue.  The platform has turned the radio on by the
time this event fires, so the step also records `bluetooth.enabled`
(a platform-owned flag the handler itself never assigns) as true. -/
def adapterAdded (s : HMState) : Except String (HMState × List HOut) := do
  let s0 := { s with settingsNotified := false, defaultAdapterPresent := true,
                     bluetoothEnabled := true }
  let (s1, outs) ← drainQueue s0 s0.actionQueue
  .ok ({ s1 with actionQueue := [] }, outs)

/-- `handleHandoverSelect` (lines 658-674). -/
def handleHandoverSelect (s : HMState) (ndef : List MozNdefRecord) :
    Except String (HMState × List HOut) :=
  match getBluetoothMAC ndef with
  | .error e => .error e
  | .ok none => .ok (s, [])
  | .ok (some mac) =>
    if s.sendFileRequest ≠ none then doAction s (.fileTransfer mac)
    else doAction s (.pairing mac)

/-- `handleHandoverRequest` (lines 676-680). -/
def handleHandoverRequest (s : HMState) (ndef : List MozNdefRecord) (session : Nat) :
    Except String (HMState × List HOut) :=
  doAction s (.handoverRequest ndef session)

/-- `handleFileTransfer` (lines 682-687). -/
def handleFileTransfer (s : HMState) (session blob requestId : Nat) :
    Except String (HMState × List HOut) :=
  doAction s (.initiateFT session blob requestId)

/-- `isHandoverInProgress` (lines 689-691). -/
def isHandoverInProgress (s : HMState) : Bool :=
  s.remoteMAC.isSome

/-- `transferComplete` (lines 693-708).  The failure branch reads
`this.sendFIleRequest` (line 704) - a misspelling of `sendFileRequest` -
which is `undefined`, so calling `.onerror()` on it raises a TypeError
before the pending request is cleared. -/
def transferComplete (s : HMState) (succeeded : Bool) :
    Except String (HMState × List HOut) :=
  let p :=
    if s.defaultAdapterPresent ∧ s.remoteMAC.isSome then
      ({ s with remoteMAC := none }, [HOut.unpairReq (s.remoteMAC.getD [])])
    else (s, ([] : List HOut))
  match p.1.sendFileRequest with
  | none => .ok (p.1, p.2)
  | some req =>
    if succeeded then
      .ok ({ p.1 with sendFileRequest := none },
           p.2 ++ [.sendFileStatus 0 req.requestId req.session])
    else .error "TypeError: this.sendFIleRequest is undefined"

/-! ## Helper definitions for stating the claims -/

/-- Canonical two-uppercase-hex-digit rendering of an octet. -/
def hex2 (o : Nat) : JStr := [hexDigitU (o / 16), hexDigitU (o % 16)]

/-- Join character groups with colons (the shape `split(':')` undoes). -/
def joinColon : List JStr → JStr
  | [] => []
  | [g] => g
  | g :: gs => g ++ ':' :: joinColon gs

/-- The canonical colon-hex address string of a list of octets,
most significant octet first. -/
def canonicalMac (os : List Nat) : JStr := joinColon (os.map hex2)

/-- The alternate-carrier region of a handover message: the nested
records of the first record's embedded NDEF message, after the
collision-resolution record when the message is a Request.  The
embedded parse call is literally the one `doParse` makes (same buffer,
cursor past the version octet). -/
def handoverACRegion (ndefMsg : List MozNdefRecord) : Option (List MozNdefRecord) :=
  match ndefMsg with
  | [] => none
  | record :: _ =>
    if record.payload.length = 0 then none
    else
      match NdefCodec.parse ⟨record.payload, 1⟩ with
      | none => none
      | some emb =>
        if NdefUtils.equalArrays record.type NdefConsts.rtd_handover_select then some emb
        else if NdefUtils.equalArrays record.type NdefConsts.rtd_handover_request then
          some (emb.drop 1)
        else none

/-- Sequential application of `doAction` to a list of submitted actions. -/
def enqueuePhase (s : HMState) : List HAction → Except String (HMState × List HOut)
  | [] => .ok (s, [])
  | a :: rest => do
    let (s1, o1) ← doAction s a
    let (s2, o2) ← enqueuePhase s1 rest
    .ok (s2, o1 ++ o2)

/-- The callback invocations recorded in an output trace, in order. -/
def invokedOf (outs : List HOut) : List HAction :=
  outs.filterMap (fun o => match o with | .invoked a => some a | _ => none)

/-- How many Bluetooth-enable settings requests a trace contains. -/
def countEnable (outs : List HOut) : Nat :=
  (outs.filter (fun o => o = HOut.requestBtEnable)).length

/-- An action whose callback returns normally from every state in which
the default adapter is installed (as it is during the queue drain). -/
def RunSafe (a : HAction) : Prop :=
  ∀ s : HMState, s.defaultAdapterPresent = true →
    ∃ p, runCallback s a = .ok p

/-- A fresh orchestrator state (fields as initialised at lines 24,
464-481; Bluetooth off, no adapter). -/
def initState : HMState :=
  ⟨false, false, [], [], none, none, false, 0⟩

/-- A syntactically valid Handover Select whose Bluetooth carrier data
record has an empty (truncated) payload: `parse` accepts it and
`searchForBluetoothAC` finds the carrier, but `parseBluetoothSSP`
throws. -/
def truncatedOobSelect : List MozNdefRecord :=
  [⟨1, [72, 115], [], [18, 209, 2, 3, 97, 99, 1, 1, 48]⟩,
   ⟨2, btOobMimeBytes, [48], []⟩]

/-- A Handover Select whose only alternate carrier references a
non-Bluetooth carrier data record (tnf well-known, type `X`). -/
def noBtSelect : List MozNdefRecord :=
  [⟨1, [72, 115], [], [18, 209, 2, 3, 97, 99, 1, 1, 48]⟩,
   ⟨1, [88], [48], []⟩]

/-- The `HandoverInfo` that `parse` produces for `noBtSelect`. -/
def noBtSelectInfo : HandoverInfo :=
  ⟨1, 2, "Hs".toList, none, [⟨1, ⟨1, [88], [48], []⟩⟩]⟩

/-- A Handover Select whose embedded alternate-carrier record carries
type bytes `ac` but tnf mime-media (0xD2 header) - the parser accepts
it because `parseAcRecords` never inspects the tnf. -/
def mimeTnfAcSelect : List MozNdefRecord :=
  [⟨1, [72, 115], [], [18, 210, 2, 3, 97, 99, 1, 1, 48]⟩,
   ⟨2, [66], [48], []⟩]

/-- A Handover Select with a well-formed Bluetooth carrier
(address 06:05:04:03:02:01). -/
def goodSelect : List MozNdefRecord :=
  [⟨1, [72, 115], [], [18, 209, 2, 3, 97, 99, 1, 1, 48]⟩,
   ⟨2, btOobMimeBytes, [48], [8, 0, 1, 2, 3, 4, 5, 6]⟩]

/-- A state holding a pending outgoing transfer and nothing else. -/
def pendingTransferState : HMState :=
  { initState with sendFileRequest := some ⟨3, 11, 7⟩ }

/-- A Handover Select whose embedded record region contains a
collision-resolution record (type `cr`, not `ac`). -/
def crInHsSelect : List MozNdefRecord :=
  [⟨1, [72, 115], [], [18, 209, 2, 2, 99, 114, 0, 0]⟩]

/-- The rendering one iteration of the MAC loop prepends for one octet:
the JS hex string with the sub-16 zero pad applied.  For octets below
256 this is the canonical two-digit rendering `hex2`. -/
def padRender (o : Nat) : JStr :=
  if o < 16 then '0' :: jsHexUpper o else jsHexUpper o

/-! ## Claims -/

/-- C1: the claim states that every codec-level parse failure is caught
at the top-level parse entrypoint, so that no malformed incoming message
raises an uncaught exception out of the orchestrator.  The code violates
this: `parseBluetoothSSP` is invoked outside the try/catch wrappers, so
a Select whose Bluetooth carrier-data payload is truncated makes
`handleHandoverSelect` raise an uncaught exception. -/
theorem C1_uncaught_exception_escapes :
    handleHandoverSelect initState truncatedOobSelect = .error "Buffer too small" ∧
    getBluetoothMAC truncatedOobSelect = .error "Buffer too small" := by
  exact ⟨rfl, rfl⟩

/-- C2: the claim states that `transferComplete false` invokes the
pending transfer failure callback exactly once and clears the pending
state.  The code instead reads the misspelled `this.sendFIleRequest`
(line 704) and raises a TypeError, invoking nothing and clearing
nothing; the success path behaves as claimed. -/
theorem C2_failure_path_typo :
    transferComplete pendingTransferState false =
      .error "TypeError: this.sendFIleRequest is undefined" ∧
    transferComplete pendingTransferState true =
      .ok ({ pendingTransferState with sendFileRequest := none },
           [.sendFileStatus 0 7 3]) := by
  exact ⟨rfl, rfl⟩

/-- C4: encoding the address AA:BB:CC:DD:EE:FF (by either encoder)
places the octets FF,EE,DD,CC,BB,AA after the two-byte little-endian
length field of the OOB carrier payload, and decoding exactly that
payload renders the address string AA:BB:CC:DD:EE:FF again. -/
theorem C4_address_byte_order :
    (∀ cps rnd : Nat, ∃ r0,
      NdefHandoverCodec.encodeHandoverRequest "AA:BB:CC:DD:EE:FF".toList cps rnd =
        some [r0, ⟨2, btOobMimeBytes, [98], [8, 0, 255, 238, 221, 204, 187, 170]⟩]) ∧
    (∀ cps : Nat, ∃ r0,
      NdefHandoverCodec.encodeHandoverSelect "AA:BB:CC:DD:EE:FF".toList cps =
        some [r0, ⟨2, btOobMimeBytes, [48], [8, 0, 255, 238, 221, 204, 187, 170]⟩]) ∧
    NdefHandoverCodec.parseBluetoothSSP
        ⟨2, btOobMimeBytes, [98], [8, 0, 255, 238, 221, 204, 187, 170]⟩ =
      .ok ⟨"AA:BB:CC:DD:EE:FF".toList, none⟩ := by
  refine ⟨fun cps rnd => ⟨_, rfl⟩, fun cps => ⟨_, rfl⟩, rfl⟩

/-- C5, counterexample: the claim states that every accepted
alternate-carrier record has a well-known type-name-category.  The
message `mimeTnfAcSelect` is accepted by `parse` although its sole
alternate-carrier-region record carries tnf mime-media (2). -/
theorem C5_counterexample :
    (NdefHandoverCodec.parse mimeTnfAcSelect).isSome = true ∧
    handoverACRegion mimeTnfAcSelect = some [⟨2, [97, 99], [], [1, 1, 48]⟩] ∧
    (2 : Nat) ≠ NdefConsts.tnf_well_known := by
  exact ⟨rfl, rfl, by decide⟩

/-- C6, counterexample: the claim states that the encoders return no
output whenever the address does not parse into 6 hex octet groups; a
six-group address made of non-hex characters is neverthless encoded
(its octets degrade to 0 through the NaN-to-0 coercion). -/
theorem C6_counterexample :
    (NdefHandoverCodec.encodeHandoverRequest "ZZ:ZZ:ZZ:ZZ:ZZ:ZZ".toList 1 0).isSome = true ∧
    (NdefHandoverCodec.encodeHandoverSelect "ZZ:ZZ:ZZ:ZZ:ZZ:ZZ".toList 1).isSome = true := by
  exact ⟨rfl, rfl⟩

/-- C6, amended: the encoders fail (return no output) exactly when
`split(':')` does not yield 6 groups; the hex content of the groups is
never validated. -/
theorem C6_amended_group_count_only (mac : JStr) (cps rnd : Nat) :
    (NdefHandoverCodec.encodeHandoverRequest mac cps rnd = none ↔
      (splitOnColon mac).length ≠ 6) ∧
    (NdefHandoverCodec.encodeHandoverSelect mac cps = none ↔
      (splitOnColon mac).length ≠ 6) := by
  unfold NdefHandoverCodec.encodeHandoverRequest NdefHandoverCodec.encodeHandoverSelect
  constructor <;>
  · by_cases h : (splitOnColon mac).length = 6 <;> simp [h]

/-- C9: a Select that parses but contains no Bluetooth-typed alternate
carrier leaves the orchestrator state completely unchanged and produces
no effect. -/
theorem C9_no_bt_carrier_no_effect (s : HMState) (ndef : List MozNdefRecord)
    (info : HandoverInfo)
    (hp : NdefHandoverCodec.parse ndef = some info)
    (hbt : NdefHandoverCodec.searchForBluetoothAC info = none) :
    handleHandoverSelect s ndef = .ok (s, []) := by
  simp only [handleHandoverSelect, getBluetoothMAC, hp, hbt]

/-- C9, witness: `noBtSelect` parses, has no Bluetooth carrier, and
leaves the initial state untouched. -/
theorem C9_witness :
    NdefHandoverCodec.parse noBtSelect = some noBtSelectInfo ∧
    NdefHandoverCodec.searchForBluetoothAC noBtSelectInfo = none ∧
    handleHandoverSelect initState noBtSelect = .ok (initState, []) :=
  ⟨rfl, rfl, C9_no_bt_carrier_no_effect initState noBtSelect noBtSelectInfo rfl rfl⟩

/-- C10: in the OOB-element loop of `parseBluetoothSSP`, an element
whose length byte is 0 and whose type byte is neither 8 nor 9 is
silently accepted: the skip length is -1, the bounds check passes, and
parsing continues with the cursor one byte past the element start (one
byte back from the position after the type byte). -/
theorem C10_zero_length_oob_element (fuel : Nat) (b b1 b2 : Buffer) (t : Nat)
    (btssp : Btssp)
    (hlt : b.offset < (b.data.length : Int))
    (h0 : b.getOctet = .ok (0, b1))
    (h1 : b1.getOctet = .ok (t, b2))
    (ht8 : t ≠ 8) (ht9 : t ≠ 9) :
    NdefHandoverCodec.oobLoop (fuel + 1) b btssp =
      NdefHandoverCodec.oobLoop fuel ⟨b.data, b.offset + 1⟩ btssp ∧
    (⟨b.data, b.offset + 1⟩ : Buffer).offset = b2.offset - 1 := by
  have hne : ¬ b.offset = (b.data.length : Int) := by omega
  unfold Buffer.getOctet at h0
  rw [if_neg hne] at h0
  simp only [Except.ok.injEq, Prod.mk.injEq] at h0
  obtain ⟨h0v, h0b⟩ := h0
  subst h0b
  unfold Buffer.getOctet at h1
  split at h1
  · exact absurd h1 (by simp)
  · rename_i hne1
    simp only [Except.ok.injEq, Prod.mk.injEq] at h1
    obtain ⟨h1v, h1b⟩ := h1
    subst h1b
    refine ⟨?_, by simp⟩
    conv_lhs => unfold NdefHandoverCodec.oobLoop
    simp only [bind, Except.bind, Buffer.getOctet, if_neg hne, if_neg hne1, h0v, h1v]
    rw [if_neg (show ¬ (t = 8 ∨ t = 9) by simp [ht8, ht9])]
    simp only [Buffer.skip]
    rw [if_neg (by omega)]
    have harith : b.offset + 1 + 1 + (((0 : Nat) : Int) - 1) = b.offset + 1 := by
      push_cast; ring
    rw [harith]

/-- C10, witness: a concrete zero-length OOB element (bytes 0, 5) at
cursor 0 is skipped with a net cursor advance of one byte. -/
theorem C10_witness :
    NdefHandoverCodec.oobLoop 2 ⟨[0, 5, 0], 0⟩ ⟨[], none⟩ =
      NdefHandoverCodec.oobLoop 1 ⟨[0, 5, 0], (0 : Int) + 1⟩ ⟨[], none⟩ ∧
    (⟨[0, 5, 0], (0 : Int) + 1⟩ : Buffer).offset =
      (⟨[0, 5, 0], (2 : Int)⟩ : Buffer).offset - 1 :=
  C10_zero_length_oob_element 1 ⟨[0, 5, 0], 0⟩ ⟨[0, 5, 0], 1⟩ ⟨[0, 5, 0], 2⟩ 5
    ⟨[], none⟩ (by decide) rfl rfl (by decide) (by decide)

/-- `pure` on `Except String` is `.ok`. -/
theorem pure_except_eq {α : Type} (a : α) : (pure a : Except String α) = .ok a := rfl

/-- `throw` on `Except String` is `.error`. -/
theorem throw_except_eq {α : Type} (e : String) :
    (throw e : Except String α) = .error e := rfl

/-- Helper for C5: a record with type bytes other than `ac` anywhere in
the processed list makes `parseAcRecords` throw. -/
theorem parseAcRecords_err_of_bad (ndef : List MozNdefRecord) (r : MozNdefRecord)
    (hbad : r.type ≠ NdefConsts.rtd_alternative_carrier) :
    ∀ l : List MozNdefRecord, r ∈ l →
      ∃ e, NdefHandoverCodec.parseAcRecords ndef l = .error e := by
  intro l
  induction l with
  | nil => simp
  | cons hd tl ih =>
    intro hmem
    unfold NdefHandoverCodec.parseAcRecords
    by_cases hty : NdefUtils.equalArrays hd.type NdefConsts.rtd_alternative_carrier = true
    · rw [if_pos hty]
      have hmem' : r ∈ tl := by
        rcases List.mem_cons.mp hmem with he | ht
        · refine absurd ?_ hbad
          subst he
          simpa [NdefUtils.equalArrays] using hty
        · exact ht
      obtain ⟨e, he⟩ := ih hmem'
      cases hac : NdefHandoverCodec.parseAC hd.payload ndef with
      | error e2 => exact ⟨e2, by simp [bind, Except.bind, hac]⟩
      | ok a => exact ⟨e, by simp [bind, Except.bind, hac, he]⟩
    · rw [if_neg hty]
      exact ⟨_, rfl⟩

/-- C5, amended: every record in the alternate-carrier region of a
message accepted by `parse` has type bytes exactly `ac`, and any region
record with different type bytes makes the whole parse fail; the
type-name-category (tnf) of region records is not checked. -/
theorem C5_ac_type_bytes_required (msg emb : List MozNdefRecord) (r : MozNdefRecord)
    (hreg : handoverACRegion msg = some emb) (hmem : r ∈ emb) :
    (r.type ≠ NdefConsts.rtd_alternative_carrier → NdefHandoverCodec.parse msg = none) ∧
    (NdefHandoverCodec.parse msg ≠ none → r.type = NdefConsts.rtd_alternative_carrier) := by
  have main : r.type ≠ NdefConsts.rtd_alternative_carrier →
      NdefHandoverCodec.parse msg = none := by
    intro hbad
    cases msg with
    | nil => simp [handoverACRegion] at hreg
    | cons record tail =>
      simp only [handoverACRegion] at hreg
      split at hreg
      · exact absurd hreg (by simp)
      · rename_i hplen
        split at hreg
        · exact absurd hreg (by simp)
        · rename_i embAll hparse
          have hc0 : ¬ (0 : Int) = (record.payload.length : Int) := by omega
          split at hreg
          · rename_i hHs
            have hemb : embAll = emb := by simpa using hreg
            rw [← hemb] at hmem
            obtain ⟨e, herr⟩ :=
              parseAcRecords_err_of_bad (record :: tail) r hbad embAll hmem
            by_cases htnf : record.tnf = NdefConsts.tnf_well_known
            · simp [NdefHandoverCodec.parse, NdefHandoverCodec.doParse, bind, Except.bind,
                Buffer.getOctet, if_neg hc0, hparse, htnf, hHs, herr,
                pure_except_eq, throw_except_eq]
            · simp [NdefHandoverCodec.parse, NdefHandoverCodec.doParse, bind, Except.bind,
                Buffer.getOctet, if_neg hc0, hparse, htnf,
                pure_except_eq, throw_except_eq]
          · rename_i hHsF
            split at hreg
            · rename_i hHr
              have hemb : embAll.drop 1 = emb := by simpa using hreg
              cases embAll with
              | nil =>
                rw [← hemb] at hmem
                simp at hmem
              | cons crr rest =>
                have hemb2 : rest = emb := by simpa using hemb
                rw [← hemb2] at hmem
                obtain ⟨e, herr⟩ :=
                  parseAcRecords_err_of_bad (record :: tail) r hbad rest hmem
                by_cases htnf : record.tnf = NdefConsts.tnf_well_known
                · by_cases hcr :
                    NdefUtils.equalArrays crr.type NdefConsts.rtd_collision_resolution = true
                  · by_cases hlen : crr.payload.length = 2
                    · simp [NdefHandoverCodec.parse, NdefHandoverCodec.doParse, bind,
                        Except.bind, Buffer.getOctet, if_neg hc0, hparse, htnf, hHsF,
                        hHr, hcr, hlen, herr, pure_except_eq, throw_except_eq]
                    · simp [NdefHandoverCodec.parse, NdefHandoverCodec.doParse, bind,
                        Except.bind, Buffer.getOctet, if_neg hc0, hparse, htnf, hHsF,
                        hHr, hcr, hlen, pure_except_eq, throw_except_eq]
                  · simp [NdefHandoverCodec.parse, NdefHandoverCodec.doParse, bind,
                      Except.bind, Buffer.getOctet, if_neg hc0, hparse, htnf, hHsF,
                      hHr, hcr, pure_except_eq, throw_except_eq]
                · simp [NdefHandoverCodec.parse, NdefHandoverCodec.doParse, bind,
                    Except.bind, Buffer.getOctet, if_neg hc0, hparse, htnf,
                    pure_except_eq, throw_except_eq]
            · exact absurd hreg (by simp)
  exact ⟨main, fun h => Classical.byContradiction fun hbad => h (main hbad)⟩

/-- C5, witness: `crInHsSelect` has a collision-resolution record in
its alternate-carrier region, so the parse fails. -/
theorem C5_witness :
    handoverACRegion crInHsSelect = some [⟨1, [99, 114], [], [0, 0]⟩] ∧
    NdefHandoverCodec.parse crInHsSelect = none :=
  ⟨rfl,
    (C5_ac_type_bytes_required crInHsSelect [⟨1, [99, 114], [], [0, 0]⟩]
      ⟨1, [99, 114], [], [0, 0]⟩ rfl (by simp)).1 (by decide)⟩

/-- The only exception `Buffer.getOctet` raises. -/
theorem Buffer.getOctet_error {b : Buffer} {e : String}
    (h : b.getOctet = .error e) : e = "Buffer too small" := by
  unfold Buffer.getOctet at h
  split at h <;> simp_all

/-- The only exception `Buffer.getOctetArray` raises. -/
theorem Buffer.getOctetArray_error {b : Buffer} {len : Int} {e : String}
    (h : b.getOctetArray len = .error e) : e = "Buffer too small" := by
  unfold Buffer.getOctetArray at h
  split at h <;> simp_all

/-- Splitting a monadic bind on `Except String` that failed. -/
theorem except_bind_error {α β : Type} {m : Except String α} {f : α → Except String β}
    {e : String} (h : m >>= f = .error e) :
    m = .error e ∨ ∃ v, m = .ok v ∧ f v = .error e := by
  cases m with
  | error err =>
    left
    have he : err = e := by simpa [Bind.bind, Except.bind] using h
    rw [he]
  | ok v =>
    right
    exact ⟨v, rfl, by simpa [Bind.bind, Except.bind] using h⟩

/-- The only exception `readLongLen` raises. -/
theorem NdefCodec.readLongLen_error {pl0 : Nat} {b : Buffer} {e : String}
    (h : NdefCodec.readLongLen pl0 b = .error e) : e = "Buffer too small" := by
  unfold NdefCodec.readLongLen at h
  rcases except_bind_error h with h | ⟨v, _, h⟩
  · exact Buffer.getOctet_error h
  obtain ⟨x1, b1⟩ := v
  dsimp only at h
  rcases except_bind_error h with h | ⟨v, _, h⟩
  · exact Buffer.getOctet_error h
  obtain ⟨x2, b2⟩ := v
  dsimp only at h
  rcases except_bind_error h with h | ⟨v, _, h⟩
  · exact Buffer.getOctet_error h
  obtain ⟨x3, b3⟩ := v
  dsimp only at h
  simp [pure, Except.pure] at h

/-- The only exception `readPayloadLen` raises. -/
theorem NdefCodec.readPayloadLen_error {o pl0 : Nat} {b : Buffer} {e : String}
    (h : NdefCodec.readPayloadLen o pl0 b = .error e) : e = "Buffer too small" := by
  unfold NdefCodec.readPayloadLen at h
  split at h
  · simp [pure, Except.pure] at h
  · exact NdefCodec.readLongLen_error h

/-- The only exception `readIdLen` raises. -/
theorem NdefCodec.readIdLen_error {o : Nat} {b : Buffer} {e : String}
    (h : NdefCodec.readIdLen o b = .error e) : e = "Buffer too small" := by
  unfold NdefCodec.readIdLen at h
  split at h
  · exact Buffer.getOctet_error h
  · simp [pure, Except.pure] at h

/-- The only exception `parseNdefRecord` raises is a buffer underrun. -/
theorem NdefCodec.parseNdefRecord_error {o : Nat} {b : Buffer} {e : String}
    (h : NdefCodec.parseNdefRecord o b = .error e) : e = "Buffer too small" := by
  unfold NdefCodec.parseNdefRecord at h
  rcases except_bind_error h with h | ⟨v, _, h⟩
  · exact Buffer.getOctet_error h
  obtain ⟨typeLen, b1⟩ := v
  dsimp only at h
  rcases except_bind_error h with h | ⟨v, _, h⟩
  · exact Buffer.getOctet_error h
  obtain ⟨pl0, b2⟩ := v
  dsimp only at h
  rcases except_bind_error h with h | ⟨v, _, h⟩
  · exact NdefCodec.readPayloadLen_error h
  obtain ⟨payloadLen, b3⟩ := v
  dsimp only at h
  rcases except_bind_error h with h | ⟨v, _, h⟩
  · exact NdefCodec.readIdLen_error h
  obtain ⟨idLen, b4⟩ := v
  dsimp only at h
  rcases except_bind_error h with h | ⟨v, _, h⟩
  · exact Buffer.getOctetArray_error h
  obtain ⟨ty, b5⟩ := v
  dsimp only at h
  rcases except_bind_error h with h | ⟨v, _, h⟩
  · exact Buffer.getOctetArray_error h
  obtain ⟨rid, b6⟩ := v
  dsimp only at h
  rcases except_bind_error h with h | ⟨v, _, h⟩
  · exact Buffer.getOctetArray_error h
  obtain ⟨payload, b7⟩ := v
  dsimp only at h
  simp [pure, Except.pure] at h

/-- The relaxed traversal (no header-flag checks) only fails with a
buffer underrun or fuel exhaustion, never with a flag error. -/
theorem NdefCodec.relaxedLoop_error :
    ∀ (fuel : Nat) (b : Buffer) (e : String),
      NdefCodec.relaxedLoop fuel b = .error e →
      e = "Buffer too small" ∨ e = "out of fuel" := by
  intro fuel
  induction fuel with
  | zero =>
    intro b e h
    simp only [NdefCodec.relaxedLoop, Except.error.injEq] at h
    exact Or.inr h.symm
  | succ n ih =>
    intro b e h
    unfold NdefCodec.relaxedLoop at h
    simp only [bind, Except.bind, pure_except_eq] at h
    cases hoct : b.getOctet with
    | error err =>
      simp only [hoct, Except.error.injEq] at h
      subst h
      exact Or.inl (Buffer.getOctet_error hoct)
    | ok v =>
      simp only [hoct] at h
      cases hrec : NdefCodec.parseNdefRecord v.1 v.2 with
      | error err =>
        simp only [hrec, Except.error.injEq] at h
        subst h
        exact Or.inl (NdefCodec.parseNdefRecord_error hrec)
      | ok w =>
        simp only [hrec] at h
        split at h
        · simp at h
        · cases hrl : NdefCodec.relaxedLoop n w.2 with
          | error err =>
            simp only [hrl, Except.error.injEq] at h
            subst h
            exact ih w.2 err hrl
          | ok rs =>
            simp only [hrl] at h
            simp at h

/-- When the header octet is readable, the trace starts with it. -/
theorem NdefCodec.headerTrace_cons {b b1 : Buffer} {o : Nat} (n : Nat)
    (hoct : b.getOctet = .ok (o, b1)) :
    ∃ t, NdefCodec.headerTrace (n + 1) b = o :: t := by
  unfold NdefCodec.headerTrace
  simp only [hoct]
  cases hrec : NdefCodec.parseNdefRecord o b1 with
  | error err =>
    simp only [hrec]
    exact ⟨[], rfl⟩
  | ok w =>
    simp only [hrec]
    split
    · exact ⟨[], rfl⟩
    · exact ⟨_, rfl⟩

/-- The header-flag characterisation of `parseLoop`: the strict loop
fails with the first violated header check (in the order the source
checks them), and in the absence of violations behaves exactly as the
relaxed traversal. -/
theorem NdefCodec.parseLoop_firstViol :
    ∀ (fuel : Nat) (b : Buffer) (isFirst : Bool),
      (match NdefCodec.firstViol isFirst (NdefCodec.headerTrace fuel b) with
       | some e => NdefCodec.parseLoop fuel b isFirst = .error e
       | none => NdefCodec.parseLoop fuel b isFirst = NdefCodec.relaxedLoop fuel b) := by
  intro fuel
  induction fuel with
  | zero =>
    intro b isFirst
    simp [NdefCodec.headerTrace, NdefCodec.firstViol, NdefCodec.parseLoop,
      NdefCodec.relaxedLoop]
  | succ n ih =>
    intro b isFirst
    cases hoct : b.getOctet with
    | error err =>
      simp [NdefCodec.headerTrace, hoct, NdefCodec.firstViol, NdefCodec.parseLoop,
        NdefCodec.relaxedLoop, bind, Except.bind]
    | ok v =>
      obtain ⟨o, b1⟩ := v
      have passTac : ∀ isF : Bool,
          (isF = true → ¬ o &&& NdefConsts.MB = 0) →
          (isF = false → o &&& NdefConsts.MB = 0) →
          o &&& NdefConsts.CF = 0 →
          (match NdefCodec.firstViol isF (NdefCodec.headerTrace (n + 1) b) with
           | some e => NdefCodec.parseLoop (n + 1) b isF = .error e
           | none => NdefCodec.parseLoop (n + 1) b isF =
               NdefCodec.relaxedLoop (n + 1) b) := by
        intro isF hMBt hMBf hCF
        cases hrec : NdefCodec.parseNdefRecord o b1 with
        | error err =>
          cases isF with
          | true =>
            simp [NdefCodec.headerTrace, hoct, hrec, NdefCodec.firstViol,
              NdefCodec.parseLoop, NdefCodec.relaxedLoop, bind, Except.bind,
              hMBt rfl, hCF]
          | false =>
            simp [NdefCodec.headerTrace, hoct, hrec, NdefCodec.firstViol,
              NdefCodec.parseLoop, NdefCodec.relaxedLoop, bind, Except.bind,
              hMBf rfl, hCF]
        | ok w =>
          by_cases hME : o &&& NdefConsts.ME = 0
          · have ihx := ih w.2 false
            cases hfv : NdefCodec.firstViol false (NdefCodec.headerTrace n w.2) with
            | some e =>
              rw [hfv] at ihx
              cases isF with
              | true =>
                simp [NdefCodec.headerTrace, hoct, hrec, NdefCodec.firstViol,
                  NdefCodec.parseLoop, bind, Except.bind, hMBt rfl, hCF, hME,
                  hfv, ihx]
              | false =>
                simp [NdefCodec.headerTrace, hoct, hrec, NdefCodec.firstViol,
                  NdefCodec.parseLoop, bind, Except.bind, hMBf rfl, hCF, hME,
                  hfv, ihx]
            | none =>
              rw [hfv] at ihx
              cases isF with
              | true =>
                simp [NdefCodec.headerTrace, hoct, hrec, NdefCodec.firstViol,
                  NdefCodec.parseLoop, NdefCodec.relaxedLoop, bind, Except.bind,
                  hMBt rfl, hCF, hME, hfv, ihx]
              | false =>
                simp [NdefCodec.headerTrace, hoct, hrec, NdefCodec.firstViol,
                  NdefCodec.parseLoop, NdefCodec.relaxedLoop, bind, Except.bind,
                  hMBf rfl, hCF, hME, hfv, ihx]
          · cases isF with
            | true =>
              simp [NdefCodec.headerTrace, hoct, hrec, NdefCodec.firstViol,
                NdefCodec.parseLoop, NdefCodec.relaxedLoop, bind, Except.bind,
                hMBt rfl, hCF, hME]
            | false =>
              simp [NdefCodec.headerTrace, hoct, hrec, NdefCodec.firstViol,
                NdefCodec.parseLoop, NdefCodec.relaxedLoop, bind, Except.bind,
                hMBf rfl, hCF, hME]
      obtain ⟨t, ht⟩ := NdefCodec.headerTrace_cons n hoct
      cases isFirst with
      | true =>
        by_cases hMB : o &&& NdefConsts.MB = 0
        · simp [ht, NdefCodec.firstViol, NdefCodec.parseLoop, hoct, hMB, bind,
            Except.bind, throw_except_eq]
        · by_cases hCF : o &&& NdefConsts.CF = 0
          · exact passTac true (fun _ => hMB) (by simp) hCF
          · simp [ht, NdefCodec.firstViol, NdefCodec.parseLoop, hoct, hMB, hCF,
              bind, Except.bind, throw_except_eq]
      | false =>
        by_cases hMB : o &&& NdefConsts.MB = 0
        · by_cases hCF : o &&& NdefConsts.CF = 0
          · exact passTac false (by simp) (fun _ => hMB) hCF
          · simp [ht, NdefCodec.firstViol, NdefCodec.parseLoop, hoct, hMB, hCF,
              bind, Except.bind, throw_except_eq]
        · simp [ht, NdefCodec.firstViol, NdefCodec.parseLoop, hoct, hMB, bind,
            Except.bind, throw_except_eq]

/-- C8: the record decoder fails exactly on the header-flag violations,
in check order (first record without MB; MB on a later record; CF
anywhere), reporting the error of the first violating header; a buffer
whose header trace violates none of the checks is treated exactly as by
the check-free traversal, whose only failures are buffer underrun (or
fuel exhaustion in the model), never a header-flag rejection. -/
theorem C8_header_flag_validation (data : List Nat) :
    (match NdefCodec.firstViol true
        (NdefCodec.headerTrace (data.length + 1) ⟨data, 0⟩) with
     | some e =>
         NdefCodec.parseLoop (data.length + 1) ⟨data, 0⟩ true = .error e ∧
         NdefCodec.parse ⟨data, 0⟩ = none
     | none =>
         NdefCodec.parseLoop (data.length + 1) ⟨data, 0⟩ true =
           NdefCodec.relaxedLoop (data.length + 1) ⟨data, 0⟩) ∧
    (∀ e, NdefCodec.relaxedLoop (data.length + 1) ⟨data, 0⟩ = .error e →
        e = "Buffer too small" ∨ e = "out of fuel") := by
  have h := NdefCodec.parseLoop_firstViol (data.length + 1) ⟨data, 0⟩ true
  constructor
  · cases hfv : NdefCodec.firstViol true
        (NdefCodec.headerTrace (data.length + 1) ⟨data, 0⟩) with
    | some e =>
      simp only [hfv] at h
      simp only [hfv]
      exact ⟨h, by simp [NdefCodec.parse, h]⟩
    | none =>
      simp only [hfv] at h
      simp only [hfv]
      exact h
  · exact fun e he => NdefCodec.relaxedLoop_error _ _ e he

/-- C8, witness: a buffer whose first header octet lacks the MB flag is
rejected with the first-check error. -/
theorem C8_witness :
    NdefCodec.parseLoop (([0, 0, 0] : List Nat).length + 1) ⟨[0, 0, 0], 0⟩ true =
      .error "MB bit not set in first NDEF record" ∧
    NdefCodec.parse ⟨[0, 0, 0], 0⟩ = none := by
  have h := (C8_header_flag_validation [0, 0, 0]).1
  have hfv : NdefCodec.firstViol true
      (NdefCodec.headerTrace (([0, 0, 0] : List Nat).length + 1) ⟨[0, 0, 0], 0⟩) =
      some "MB bit not set in first NDEF record" := rfl
  simp only [hfv] at h
  exact h

/-- Any successful callback run preserves the action queue, the adapter
and the enabled flag, records exactly one invocation, and requests no
Bluetooth enablement. -/
theorem runCallback_ok_shape {s s4 : HMState} {a : HAction} {outs : List HOut}
    (h : runCallback s a = .ok (s4, outs)) :
    s4.actionQueue = s.actionQueue ∧ invokedOf outs = [a] ∧ countEnable outs = 0 ∧
    s4.defaultAdapterPresent = s.defaultAdapterPresent ∧
    s4.bluetoothEnabled = s.bluetoothEnabled := by
  cases a with
  | fileTransfer mac =>
    simp only [runCallback, Except.ok.injEq, Prod.mk.injEq] at h
    obtain ⟨h1, h2⟩ := h
    subst h1
    subst h2
    cases hsf : s.sendFileRequest <;>
      by_cases hd : s.defaultAdapterPresent = false <;>
      simp [doFileTransfer, doPairing, hsf, hd, invokedOf, countEnable]
  | pairing mac =>
    simp only [runCallback, Except.ok.injEq, Prod.mk.injEq] at h
    obtain ⟨h1, h2⟩ := h
    subst h1
    subst h2
    by_cases hd : s.defaultAdapterPresent = false <;>
      simp [doPairing, hd, invokedOf, countEnable]
  | handoverRequest ndef session =>
    cases hbm : getBluetoothMAC ndef with
    | error e => simp [runCallback, doHandoverRequest, hbm, Except.map] at h
    | ok o =>
      cases o with
      | none =>
        simp only [runCallback, doHandoverRequest, hbm, Except.map,
          Except.ok.injEq, Prod.mk.injEq] at h
        obtain ⟨h1, h2⟩ := h
        subst h1
        subst h2
        simp [invokedOf, countEnable]
      | some mac =>
        by_cases hd : s.defaultAdapterPresent = false
        · simp [runCallback, doHandoverRequest, hbm, hd, Except.map] at h
        · simp [runCallback, doHandoverRequest, hbm, hd, Except.map] at h
          obtain ⟨h1, h2⟩ := h
          subst h1
          subst h2
          refine ⟨rfl, by simp [invokedOf], by simp [countEnable], by simp_all, rfl⟩
  | initiateFT session blob requestId =>
    by_cases hd : s.defaultAdapterPresent = false
    · simp [runCallback, initiateFileTransfer, hd, Except.map] at h
    · simp [runCallback, initiateFileTransfer, hd, Except.map] at h
      obtain ⟨h1, h2⟩ := h
      subst h1
      subst h2
      refine ⟨rfl, by simp [invokedOf], by simp [countEnable], by simp_all, rfl⟩

/-- Draining a queue of safe actions with the adapter installed runs
each action exactly once, in order, with no enable request, and leaves
the queue field untouched. -/
theorem drainQueue_ok (q : List HAction) :
    ∀ s : HMState, s.defaultAdapterPresent = true →
      (∀ a ∈ q, RunSafe a) →
      ∃ s1 outs, drainQueue s q = .ok (s1, outs) ∧
        invokedOf outs = q ∧ countEnable outs = 0 ∧
        s1.actionQueue = s.actionQueue ∧
        s1.defaultAdapterPresent = true := by
  induction q with
  | nil =>
    intro s had _
    exact ⟨s, [], rfl, rfl, rfl, rfl, had⟩
  | cons a rest ih =>
    intro s had hsafe
    obtain ⟨⟨s1, o1⟩, hrc⟩ := hsafe a (by simp) s had
    obtain ⟨hq1, hinv1, hce1, had1, _⟩ := runCallback_ok_shape hrc
    obtain ⟨s2, o2, hd2, hinv2, hce2, hq2, had2⟩ :=
      ih s1 (had1.trans had) (fun x hx => hsafe x (by simp [hx]))
    refine ⟨s2, o1 ++ o2, ?_, ?_, ?_, ?_, had2⟩
    · simp [drainQueue, hrc, hd2, bind, Except.bind]
    · have happ : invokedOf (o1 ++ o2) = invokedOf o1 ++ invokedOf o2 := by
        simp [invokedOf, List.filterMap_append]
      rw [happ, hinv1, hinv2]
      rfl
    · have happ : countEnable (o1 ++ o2) = countEnable o1 + countEnable o2 := by
        simp [countEnable, List.filter_append]
      rw [happ, hce1, hce2]
    · rw [hq2, hq1]

/-- Submitting actions while Bluetooth is disabled only queues them (in
order, invoking none) and raises the settings enable request exactly
once when starting from an un-notified state. -/
theorem enqueuePhase_disabled (as : List HAction) :
    ∀ s : HMState, s.bluetoothEnabled = false →
      ∃ s1 outs, enqueuePhase s as = .ok (s1, outs) ∧
        invokedOf outs = [] ∧
        s1.actionQueue = s.actionQueue ++ as ∧
        s1.bluetoothEnabled = false ∧
        countEnable outs = (if s.settingsNotified = false ∧ as ≠ [] then 1 else 0) := by
  induction as with
  | nil =>
    intro s hdis
    exact ⟨s, [], rfl, rfl, by simp, hdis, by simp [countEnable]⟩
  | cons a rest ih =>
    intro s hdis
    by_cases hsn : s.settingsNotified = false
    · obtain ⟨s2, o2, h2, hinv, hq, hbe, hce⟩ :=
        ih { s with actionQueue := s.actionQueue ++ [a], settingsNotified := true }
          (by simp [hdis])
      simp only [hdis] at h2
      refine ⟨s2, [.requestBtEnable] ++ o2, ?_, ?_, ?_, hbe, ?_⟩
      · simp [enqueuePhase, doAction, hdis, hsn, h2, bind, Except.bind]
      · simpa [invokedOf] using hinv
      · rw [hq]
        simp
      · have hcnt : countEnable ([HOut.requestBtEnable] ++ o2) = countEnable o2 + 1 := by
          simp [countEnable, List.filter_append]
        rw [hcnt, hce]
        simp [hsn]
    · have hsn2 : s.settingsNotified = true := by simpa using hsn
      obtain ⟨s2, o2, h2, hinv, hq, hbe, hce⟩ :=
        ih { s with actionQueue := s.actionQueue ++ [a] } (by simp [hdis])
      simp only [hdis, hsn2] at h2
      refine ⟨s2, o2, ?_, hinv, ?_, hbe, ?_⟩
      · simp [enqueuePhase, doAction, hdis, hsn2, h2, bind, Except.bind]
      · rw [hq]
        simp
      · rw [hce]
        simp [hsn2]

/-- `pairing` callbacks always return normally. -/
theorem runSafe_pairing (mac : JStr) : RunSafe (.pairing mac) :=
  fun _ _ => ⟨_, rfl⟩

/-- `fileTransfer` callbacks always return normally. -/
theorem runSafe_fileTransfer (mac : JStr) : RunSafe (.fileTransfer mac) :=
  fun _ _ => ⟨_, rfl⟩

/-- C7, amended: provided none of the queued callbacks raises during
its run (an exception is possible only through the handover-request
action on a message with a malformed Bluetooth carrier payload, see
C1), actions submitted while the radio is disabled are queued without
running, the radio-enable settings request is issued exactly once per
disable-enable cycle (and never while draining), the radio-ready
notification runs the queued actions exactly once each in FIFO order
and clears the queue; an action submitted while the radio is enabled
runs immediately, exactly once, without touching the queue. -/
theorem C7_queue_discipline (s : HMState) (as : List HAction)
    (hdis : s.bluetoothEnabled = false)
    (hsn : s.settingsNotified = false)
    (hsafe : ∀ a ∈ s.actionQueue ++ as, RunSafe a) :
    (∃ s1 o1 s2 o2,
      enqueuePhase s as = .ok (s1, o1) ∧
      invokedOf o1 = [] ∧
      countEnable o1 = (if as = [] then 0 else 1) ∧
      adapterAdded s1 = .ok (s2, o2) ∧
      invokedOf o2 = s.actionQueue ++ as ∧
      countEnable o2 = 0 ∧
      s2.actionQueue = []) ∧
    (∀ (t : HMState) (a : HAction), t.bluetoothEnabled = true →
      doAction t a = runCallback t a) ∧
    (∀ (t t2 : HMState) (a : HAction) (outs : List HOut),
      runCallback t a = .ok (t2, outs) →
      t2.actionQueue = t.actionQueue ∧ invokedOf outs = [a]) := by
  refine ⟨?_, ?_, ?_⟩
  · obtain ⟨s1, o1, h1, hinv1, hq1, hbe1, hce1⟩ := enqueuePhase_disabled as s hdis
    have hsafe1 : ∀ a ∈ s1.actionQueue, RunSafe a := by
      intro a ha
      rw [hq1] at ha
      exact hsafe a ha
    obtain ⟨sd, o2, hdq, hinv2, hce2, hqd, _⟩ :=
      drainQueue_ok s1.actionQueue
        { s1 with settingsNotified := false, defaultAdapterPresent := true,
                  bluetoothEnabled := true } rfl hsafe1
    refine ⟨s1, o1, { sd with actionQueue := [] }, o2, h1, hinv1, ?_, ?_, ?_, hce2, rfl⟩
    · rw [hce1, hsn]
      by_cases hnil : as = [] <;> simp [hnil]
    · simp [adapterAdded, hdq, bind, Except.bind]
    · rw [hinv2]
      exact hq1
  · intro t a ht
    simp [doAction, ht]
  · intro t t2 a outs h
    exact ⟨(runCallback_ok_shape h).1, (runCallback_ok_shape h).2.1⟩

/-- C7, counterexample: the claim states that every sequence of actions
queued while the radio is disabled runs exactly once each after the
radio-ready notification, with the queue then cleared.  A queued
handover-request action whose message has a truncated Bluetooth carrier
payload raises during the drain: the notification handler aborts with
an uncaught exception, the later queued pairing action never runs, and
the queue-clearing statement after the loop is never reached. -/
theorem C7_counterexample :
    ∃ s1 o1 s2 o2,
      handleHandoverRequest initState truncatedOobSelect 7 = .ok (s1, o1) ∧
      handleHandoverSelect s1 goodSelect = .ok (s2, o2) ∧
      s2.actionQueue = [.handoverRequest truncatedOobSelect 7,
                        .pairing "06:05:04:03:02:01".toList] ∧
      adapterAdded s2 = .error "Buffer too small" := by
  exact ⟨_, _, _, _, rfl, rfl, rfl, rfl⟩

/-- C7, witness: two safe actions queued from the initial state run in
FIFO order exactly once after the ready notification. -/
theorem C7_witness :
    ∃ s1 o1 s2 o2,
      enqueuePhase initState [HAction.pairing ['a'], HAction.fileTransfer ['b']] =
        .ok (s1, o1) ∧
      invokedOf o1 = [] ∧
      countEnable o1 =
        (if ([HAction.pairing ['a'], HAction.fileTransfer ['b']] : List HAction) = []
         then 0 else 1) ∧
      adapterAdded s1 = .ok (s2, o2) ∧
      invokedOf o2 = initState.actionQueue ++
        [HAction.pairing ['a'], HAction.fileTransfer ['b']] ∧
      countEnable o2 = 0 ∧
      s2.actionQueue = [] :=
  (C7_queue_discipline initState [HAction.pairing ['a'], HAction.fileTransfer ['b']]
    rfl rfl
    (by
      intro a ha
      simp [initState] at ha
      rcases ha with h | h <;> subst h
      · exact runSafe_pairing ['a']
      · exact runSafe_fileTransfer ['b'])).1

/-- `splitOnColon` never returns the empty list. -/
theorem splitOnColon_ne_nil (s : JStr) : splitOnColon s ≠ [] := by
  cases s with
  | nil => simp [splitOnColon]
  | cons c rest =>
    unfold splitOnColon
    by_cases hc : c = ':'
    · simp [hc]
    · rw [if_neg hc]
      cases h : splitOnColon rest <;> simp

/-- Splitting a colon-free string yields that one group. -/
theorem splitOnColon_no_colon (g : JStr) (hg : ':' ∉ g) : splitOnColon g = [g] := by
  induction g with
  | nil => rfl
  | cons c rest ih =>
    have hc : c ≠ ':' := fun h => hg (by simp [h])
    have hrest : ':' ∉ rest := fun h => hg (by simp [h])
    unfold splitOnColon
    rw [if_neg hc, ih hrest]

/-- Splitting past a colon-free group peels it off. -/
theorem splitOnColon_append (g t : JStr) (hg : ':' ∉ g) :
    splitOnColon (g ++ ':' :: t) = g :: splitOnColon t := by
  induction g with
  | nil => simp [splitOnColon]
  | cons c rest ih =>
    have hc : c ≠ ':' := fun h => hg (by simp [h])
    have hrest : ':' ∉ rest := fun h => hg (by simp [h])
    have hr := ih hrest
    have hstep : splitOnColon (c :: (rest ++ ':' :: t)) =
        match splitOnColon (rest ++ ':' :: t) with
        | g :: gs => (c :: g) :: gs
        | [] => [[c]] := by
      conv_lhs => unfold splitOnColon
      rw [if_neg hc]
    rw [List.cons_append, hstep, hr]

/-- `split(':')` undoes colon-joining of colon-free groups. -/
theorem split_join (gs : List JStr) (hne : gs ≠ []) (hnc : ∀ g ∈ gs, ':' ∉ g) :
    splitOnColon (joinColon gs) = gs := by
  induction gs with
  | nil => simp at hne
  | cons g rest ih =>
    cases rest with
    | nil => exact splitOnColon_no_colon g (hnc g (by simp))
    | cons g2 r2 =>
      have hj : joinColon (g :: g2 :: r2) = g ++ ':' :: joinColon (g2 :: r2) := rfl
      rw [hj, splitOnColon_append g _ (hnc g (by simp))]
      rw [ih (by simp) (fun x hx => hnc x (by simp [hx]))]

/-- One MAC-loop iteration is the padded rendering prepended with a
colon separator when something was already rendered. -/
theorem macStep_eq (o : Nat) (mac : JStr) :
    macStep o mac = padRender o ++ (if mac = [] then [] else ':' :: mac) := by
  unfold macStep padRender
  by_cases ho : o < 16 <;> by_cases hm : mac = [] <;>
    simp [ho, hm, List.length_pos]

set_option maxRecDepth 8192

/-- Below 256 the padded JS rendering is the canonical two-digit form. -/
theorem padRender_eq_hex2 : ∀ o, o < 256 → padRender o = hex2 o := by decide

/-- Canonical two-digit octet renderings never contain a colon. -/
theorem hex2_no_colon : ∀ o, o < 256 → ':' ∉ hex2 o := by decide

/-- `parseInt(-, 16)` recovers the octet from its two-digit rendering. -/
theorem parseIntHex_hex2 : ∀ o, o < 256 → parseIntHex (hex2 o) = some o := by decide

/-- The two-digit rendering is never empty. -/
theorem hex2_ne_nil (o : Nat) : hex2 o ≠ [] := by simp [hex2]

/-- Evaluation of `encodeHandoverRequest` once the address splits into
six groups: the source templates with the group values parsed in
reverse order. -/
theorem encodeHandoverRequest_eq (g0 g1 g2 g3 g4 g5 : JStr) (mac : JStr)
    (cps rnd : Nat) (hs : splitOnColon mac = [g0, g1, g2, g3, g4, g5]) :
    NdefHandoverCodec.encodeHandoverRequest mac cps rnd =
      some [⟨1, [72, 114], [],
             [18, 145, 2, 2, 99, 114, ((rnd % 4294967296) >>> 8) % 256,
              (rnd &&& 255) % 256, 81, 2, 4, 97, 99, cps % 256, 1, 98, 0]⟩,
            ⟨2, btOobMimeBytes, [98],
             [8, 0, jsToUint8 (parseIntHex g5), jsToUint8 (parseIntHex g4),
              jsToUint8 (parseIntHex g3), jsToUint8 (parseIntHex g2),
              jsToUint8 (parseIntHex g1), jsToUint8 (parseIntHex g0)]⟩] := by
  unfold NdefHandoverCodec.encodeHandoverRequest
  rw [hs]
  rfl

/-- The embedded NDEF message inside the Request template: the
collision-resolution record followed by the alternate-carrier record. -/
theorem parseHrEmbedded (x y z : Nat) :
    NdefCodec.parse ⟨[18, 145, 2, 2, 99, 114, x, y, 81, 2, 4, 97, 99, z, 1, 98, 0], 1⟩ =
    some [⟨1, [99, 114], [], [x, y]⟩, ⟨1, [97, 99], [], [z, 1, 98, 0]⟩] := by
  simp +decide [NdefCodec.parse, NdefCodec.parseLoop, NdefCodec.parseNdefRecord,
    NdefCodec.readPayloadLen, NdefCodec.readIdLen, Buffer.getOctet,
    Buffer.getOctetArray, Buffer.byteAt, bind, Except.bind, pure, Except.pure,
    NdefConsts.MB, NdefConsts.ME, NdefConsts.CF, NdefConsts.SR, NdefConsts.IL,
    NdefConsts.TNF]

/-- Parsing the Handover Request template built by the encoder: kind
Hr, version 1.2, collision value recombined big-endian, one alternate
carrier whose power state masks the transmitted byte and whose carrier
data record is the Bluetooth OOB record. -/
theorem parseHrTemplate (x y z : Nat) (pb : List Nat) :
    NdefHandoverCodec.doParse
      [⟨1, [72, 114], [], [18, 145, 2, 2, 99, 114, x, y, 81, 2, 4, 97, 99, z, 1, 98, 0]⟩,
       ⟨2, btOobMimeBytes, [98], pb⟩] =
    .ok ⟨1, 2, "Hr".toList, some ((x <<< 8) ||| y),
         [⟨z &&& 3, ⟨2, btOobMimeBytes, [98], pb⟩⟩]⟩ := by
  simp +decide [NdefHandoverCodec.doParse, parseHrEmbedded, Buffer.getOctet,
    Buffer.byteAt, Buffer.getOctetArray, bind, Except.bind, pure, Except.pure,
    NdefHandoverCodec.parseAcRecords, NdefHandoverCodec.parseAC,
    NdefHandoverCodec.findNdefRecordWithId, NdefUtils.equalArrays]

/-- The Bluetooth carrier search finds the mime-typed OOB record of the
template. -/
theorem searchHrTemplate (c : Option Nat) (z : Nat) (pb : List Nat) :
    NdefHandoverCodec.searchForBluetoothAC
      ⟨1, 2, "Hr".toList, c, [⟨z, ⟨2, btOobMimeBytes, [98], pb⟩⟩]⟩ =
    some ⟨2, btOobMimeBytes, [98], pb⟩ := by
  simp +decide [NdefHandoverCodec.searchForBluetoothAC, NdefHandoverCodec.searchACList]

/-- Decoding an eight-byte OOB payload: length field, then the six
address octets rendered in reverse through the MAC loop, no trailing
elements. -/
theorem sspTemplate (a b c d e f : Nat) :
    NdefHandoverCodec.parseBluetoothSSP ⟨2, btOobMimeBytes, [98], [8, 0, a, b, c, d, e, f]⟩ =
    .ok ⟨macStep f (macStep e (macStep d (macStep c (macStep b (macStep a []))))), none⟩ := by
  simp +decide [NdefHandoverCodec.parseBluetoothSSP, NdefHandoverCodec.macLoop,
    NdefHandoverCodec.oobLoop, Buffer.getOctet, Buffer.byteAt, bind, Except.bind,
    pure, Except.pure]

/-- Splitting the collision value into high and low octet and
recombining big-endian is the identity on 16-bit values. -/
theorem collision_roundtrip (rnd : Nat) (h : rnd < 65536) :
    ((((rnd % 4294967296) >>> 8) % 256) <<< 8) ||| ((rnd &&& 255) % 256) = rnd := by
  have h32 : rnd % 4294967296 = rnd := Nat.mod_eq_of_lt (by omega)
  have hsr : rnd >>> 8 = rnd / 256 := by
    rw [Nat.shiftRight_eq_div_pow]
  have hlt : rnd / 256 < 256 := by omega
  have hand : rnd &&& 255 = rnd % 256 := by
    have h8 := Nat.and_pow_two_sub_one_eq_mod rnd 8
    norm_num at h8
    exact h8
  rw [h32, hsr, Nat.mod_eq_of_lt hlt, hand,
    Nat.mod_eq_of_lt (Nat.mod_lt _ (by norm_num)), Nat.shiftLeft_eq,
    Nat.mul_comm]
  have hor := Nat.mul_add_lt_is_or (show rnd % 256 < 2 ^ 8 by omega) (rnd / 256)
  rw [← hor]
  omega

/-- C3: round-trip for Handover Requests.  For every address of six
colon-separated two-digit uppercase hex octet groups, every power
state, and every 16-bit collision value, parsing the encoded Request
recovers kind Hr, the same collision value, the carrier power state,
and - through Bluetooth-carrier extraction and OOB parsing - the same
address string. -/
theorem C3_request_roundtrip (o0 o1 o2 o3 o4 o5 cps rnd : Nat)
    (h0 : o0 < 256) (h1 : o1 < 256) (h2 : o2 < 256)
    (h3 : o3 < 256) (h4 : o4 < 256) (h5 : o5 < 256)
    (hc : cps < 4) (hr : rnd < 65536) :
    ∃ hrMsg info cdr btssp,
      NdefHandoverCodec.encodeHandoverRequest
        (canonicalMac [o0, o1, o2, o3, o4, o5]) cps rnd = some hrMsg ∧
      NdefHandoverCodec.parse hrMsg = some info ∧
      info.htype = "Hr".toList ∧
      info.cr = some rnd ∧
      info.ac.map AltCarrier.cps = [cps] ∧
      NdefHandoverCodec.searchForBluetoothAC info = some cdr ∧
      NdefHandoverCodec.parseBluetoothSSP cdr = .ok btssp ∧
      btssp.mac = canonicalMac [o0, o1, o2, o3, o4, o5] := by
  have hsplit : splitOnColon (canonicalMac [o0, o1, o2, o3, o4, o5]) =
      [hex2 o0, hex2 o1, hex2 o2, hex2 o3, hex2 o4, hex2 o5] := by
    show splitOnColon
      (joinColon [hex2 o0, hex2 o1, hex2 o2, hex2 o3, hex2 o4, hex2 o5]) = _
    apply split_join
    · simp
    · intro g hg
      simp only [List.mem_cons, List.not_mem_nil, or_false] at hg
      rcases hg with h | h | h | h | h | h <;> subst h
      exacts [hex2_no_colon o0 h0, hex2_no_colon o1 h1, hex2_no_colon o2 h2,
        hex2_no_colon o3 h3, hex2_no_colon o4 h4, hex2_no_colon o5 h5]
  have hm : ∀ o, o < 256 → jsToUint8 (parseIntHex (hex2 o)) = o := fun o ho => by
    rw [parseIntHex_hex2 o ho]
    simp [jsToUint8, Nat.mod_eq_of_lt ho]
  have henc := encodeHandoverRequest_eq _ _ _ _ _ _ _ cps rnd hsplit
  rw [hm o5 h5, hm o4 h4, hm o3 h3, hm o2 h2, hm o1 h1, hm o0 h0] at henc
  have hparse := parseHrTemplate (((rnd % 4294967296) >>> 8) % 256)
    ((rnd &&& 255) % 256) (cps % 256) [8, 0, o5, o4, o3, o2, o1, o0]
  have hcr := collision_roundtrip rnd hr
  have hcps : (cps % 256) &&& 3 = cps := by
    have hcl : cps % 256 = cps := Nat.mod_eq_of_lt (by omega)
    rw [hcl]
    have h2p := Nat.and_pow_two_sub_one_eq_mod cps 2
    norm_num at h2p
    rw [h2p]
    exact Nat.mod_eq_of_lt (by omega)
  rw [hcr, hcps] at hparse
  have hmac : macStep o0 (macStep o1 (macStep o2 (macStep o3
      (macStep o4 (macStep o5 []))))) = canonicalMac [o0, o1, o2, o3, o4, o5] := by
    simp only [macStep_eq, padRender_eq_hex2 o0 h0, padRender_eq_hex2 o1 h1,
      padRender_eq_hex2 o2 h2, padRender_eq_hex2 o3 h3, padRender_eq_hex2 o4 h4,
      padRender_eq_hex2 o5 h5]
    simp [canonicalMac, joinColon, hex2]
  refine ⟨[⟨1, [72, 114], [],
      [18, 145, 2, 2, 99, 114, ((rnd % 4294967296) >>> 8) % 256,
       (rnd &&& 255) % 256, 81, 2, 4, 97, 99, cps % 256, 1, 98, 0]⟩,
      ⟨2, btOobMimeBytes, [98], [8, 0, o5, o4, o3, o2, o1, o0]⟩],
    ⟨1, 2, "Hr".toList, some rnd,
      [⟨cps, ⟨2, btOobMimeBytes, [98], [8, 0, o5, o4, o3, o2, o1, o0]⟩⟩]⟩,
    ⟨2, btOobMimeBytes, [98], [8, 0, o5, o4, o3, o2, o1, o0]⟩,
    ⟨macStep o0 (macStep o1 (macStep o2 (macStep o3 (macStep o4 (macStep o5 []))))),
      none⟩,
    henc, ?_, rfl, rfl, by simp, searchHrTemplate (some rnd) cps _,
    sspTemplate o5 o4 o3 o2 o1 o0, hmac⟩
  simp [NdefHandoverCodec.parse, hparse]

/-- C3, witness: the round-trip at address AA:BB:CC:DD:EE:FF, power
state 1 and collision value 5. -/
theorem C3_witness :
    ∃ hrMsg info cdr btssp,
      NdefHandoverCodec.encodeHandoverRequest
        (canonicalMac [170, 187, 204, 221, 238, 255]) 1 5 = some hrMsg ∧
      NdefHandoverCodec.parse hrMsg = some info ∧
      info.htype = "Hr".toList ∧
      info.cr = some 5 ∧
      info.ac.map AltCarrier.cps = [1] ∧
      NdefHandoverCodec.searchForBluetoothAC info = some cdr ∧
      NdefHandoverCodec.parseBluetoothSSP cdr = .ok btssp ∧
      btssp.mac = canonicalMac [170, 187, 204, 221, 238, 255] :=
  C3_request_roundtrip 170 187 204 221 238 255 1 5 (by decide) (by decide)
    (by decide) (by decide) (by decide) (by decide) (by decide) (by decide)
